import Mathlib

/-!
Verification of `hbp_archive.py` (a client library emulating directory
semantics over the CSCS Swift object store).

The Python source is shallowly embedded below.  Stateful storage operations
are modelled by explicit state passing over a `Store` (the flat listing of
one Swift container).  A Python call that raises an exception which escapes
to the caller is modelled with `Except PyErr`; exceptions that the source
catches internally (and merely logs) are handled inside the corresponding
definitions, exactly as the `try/except` blocks of the source do.
Byte strings are modelled as `List Nat`.
-/

namespace HbpArchive

/-- Python exception kinds that occur in the embedded code.  The source
raises plain `Exception`/`IOError`/`ValueError` objects distinguished only
by their message; we carry the message where the source formats one. -/
inductive PyErr where
  | clientException : PyErr
  | ioError (msg : String) : PyErr
  | valueError (msg : String) : PyErr
  | keyError : PyErr
  | indexError : PyErr
  | typeError : PyErr
  | exn (msg : String) : PyErr
  deriving DecidableEq, Repr

/-- Decidable equality of `Except` results (for concrete evaluation). -/
instance {ε α : Type} [DecidableEq ε] [DecidableEq α] :
    DecidableEq (Except ε α) := fun a b =>
  match a, b with
  | .error e, .error f =>
    if h : e = f then .isTrue (congrArg Except.error h)
    else .isFalse (fun hq => h (Except.error.inj hq))
  | .ok x, .ok y =>
    if h : x = y then .isTrue (congrArg Except.ok h)
    else .isFalse (fun hq => h (Except.ok.inj hq))
  | .error _, .ok _ => .isFalse (fun hq => Except.noConfusion hq)
  | .ok _, .error _ => .isFalse (fun hq => Except.noConfusion hq)

/-! ### Python string / path helpers (`os.path`, `str.split`, `str.join`)

These are written on `List Char` (structural recursion) so that every
definition evaluates on concrete inputs. -/

/-- Python `str.split(sep)` for a one-character separator, on `List Char`. -/
def splitChAux (sep : Char) : List Char → List (List Char)
  | [] => [[]]
  | c :: rest =>
    match splitChAux sep rest with
    | [] => [[]]
    | h :: t => if c = sep then [] :: h :: t else (c :: h) :: t

/-- Python `str.split(sep)` for a one-character separator. -/
def pySplit (sep : Char) (s : String) : List String :=
  (splitChAux sep s.data).map String.mk

/-- Python `sep.join(xs)` for a one-character separator, on `List Char`. -/
def joinChAux (sep : Char) : List (List Char) → List Char
  | [] => []
  | [x] => x
  | x :: xs => x ++ sep :: joinChAux sep xs

/-- Python `sep.join(xs)` for a one-character separator. -/
def pyJoin (sep : Char) (xs : List String) : String :=
  String.mk (joinChAux sep (xs.map String.data))

/-- `s.startswith(pre)`. -/
def pyStartsWith (s pre : String) : Bool := pre.data.isPrefixOf s.data

/-- `os.path.join(a, b)` (posixpath semantics, two arguments). -/
def osJoin (a b : String) : String :=
  if b.data.head? = some '/' then b
  else if a = "" || a.data.getLast? = some '/' then a ++ b
  else a ++ "/" ++ b

/-- `os.path.join(a, b, c)`. -/
def osJoin3 (a b c : String) : String := osJoin (osJoin a b) c

/-- `os.path.basename(s)`: everything after the last slash. -/
def pyBasename (s : String) : String :=
  String.mk ((splitChAux '/' s.data).getLastD [])

/-- Drop the trailing `'/'` characters (`str.rstrip('/')`), on `List Char`. -/
def dropTrailingSlashesCh (l : List Char) : List Char :=
  (l.reverse.dropWhile (fun c => c = '/')).reverse

/-- `os.path.dirname(s)` (posixpath semantics): the part before the last
slash, with trailing slashes stripped unless the head is all slashes. -/
def pyDirname (s : String) : String :=
  let parts := splitChAux '/' s.data
  if parts.length == 1 then ""
  else
    let head := joinChAux '/' parts.dropLast ++ ['/']
    if head.all (fun c => c = '/') then String.mk head
    else String.mk (dropTrailingSlashesCh head)

/-! ### The Swift object-storage backend (collaborator, spec section 6)

Modelled from the spec: the object-storage protocol operating on
(container, object-key) pairs — `head-object`, `get-object`, `put-object`,
`copy-object(source, destination)`, `delete-object` — where "not found" is
a distinguished outcome (`ClientException` in swiftclient).  One container
is modelled; its flat listing is a list of objects in listing order. -/

/-- One stored object of the flat container listing. -/
structure SwObj where
  name : String
  content : List Nat
  content_type : String
  deriving DecidableEq, Repr

/-- The flat listing of one container. -/
abbrev Store := List SwObj

/-- Find the object stored under a key. -/
def lookupObj (st : Store) (k : String) : Option SwObj :=
  st.find? (fun o => o.name = k)

/-- `head_object`: does the key exist? (`True` = the HEAD request succeeds,
`False` = the backend raises `ClientException`). -/
def headObject (st : Store) (k : String) : Bool :=
  (lookupObj st k).isSome

/-- `put_object`: write bytes under a key, overwriting any existing object. -/
def putObject (st : Store) (k : String) (content : List Nat)
    (ct : String) : Store :=
  if headObject st k then
    st.map (fun o => if o.name = k then ⟨k, content, ct⟩ else o)
  else st ++ [⟨k, content, ct⟩]

/-- `delete_object`: remove the object, `ClientException` if absent. -/
def deleteObject (st : Store) (k : String) : Except PyErr Store :=
  if headObject st k then .ok (st.filter (fun o => o.name ≠ k))
  else .error .clientException

/-- swiftclient `copy_object` receives `destination = "<container>/<key>"`;
the backend strips the leading container segment to obtain the new key. -/
def stripContName (cname dest : String) : String :=
  if pyStartsWith dest (cname ++ "/") then
    String.mk (dest.data.drop (cname.data.length + 1))
  else dest

/-- `copy_object(cname, src, destination)`: duplicate the source object
under the destination key, `ClientException` if the source is absent. -/
def copyObject (st : Store) (cname src dest : String) : Except PyErr Store :=
  match lookupObj st src with
  | none => .error .clientException
  | some o => .ok (putObject st (stripContName cname dest) o.content o.content_type)

/-- The keys of a listing (`[f.name for f in container.list()]`). -/
def listKeys (st : Store) : List String := st.map (fun o => o.name)

/-! ### `scale_bytes` -/

/-- The `allowed_units` dict of `scale_bytes`, in insertion order. -/
def allowed_units : List (String × ℕ) :=
  [("bytes", 1), ("kB", 1024), ("MB", 1048576),
   ("GB", 1073741824), ("TB", 1099511627776)]

/-- `scale_bytes(value, units)`: true division of the value by the unit
scale; `ValueError` when the unit is not in the allowed dict.  Python
float division is modelled by exact `ℚ` division. -/
def scale_bytes (value : ℚ) (units : String) : Except PyErr ℚ :=
  match allowed_units.find? (fun p => p.1 = units) with
  | none => .error (.valueError
      "Units must be one of ['bytes', 'kB', 'MB', 'GB', 'TB']")
  | some p => .ok (value / (p.2 : ℚ))

/-! ### Container operations

Each definition embeds the method of the same name of `Container` in
`hbp_archive.py`.  `cname` is `self.name`; the store is the backend state
of that container.  `new_name : Option String` embeds the Python default
`new_name=None`; the source guard `if not new_name` is falsy both for
`None` and for the empty string. -/

namespace Container

/-- `Container.copy(file_path, target_directory, new_name, overwrite)`.
The conflict `IOError` and any `ClientException` from the backend are
caught inside the method (merely logged), so the call always returns
`None`; the `Except` layer records that no exception escapes. -/
def copy (cname : String) (st : Store) (file_path target_directory : String)
    (new_name : Option String := none) (overwrite : Bool := false) :
    Except PyErr Unit × Store :=
  let nn := match new_name with
    | none => pyBasename file_path
    | some n => if n = "" then pyBasename file_path else n
  if !overwrite && headObject st (osJoin target_directory nn) then
    (.ok (), st)
  else
    match copyObject st cname file_path (osJoin3 cname target_directory nn) with
    | .ok st1 => (.ok (), st1)
    | .error _ => (.ok (), st)

/-- `Container.move(file_path, target_directory, new_name, overwrite)`:
copy then delete the source; all backend failures are caught and logged,
so the call always returns `None`. -/
def move (cname : String) (st : Store) (file_path target_directory : String)
    (new_name : Option String := none) (overwrite : Bool := false) :
    Except PyErr Unit × Store :=
  let nn := match new_name with
    | none => pyBasename file_path
    | some n => if n = "" then pyBasename file_path else n
  if !overwrite && headObject st (osJoin target_directory nn) then
    (.ok (), st)
  else
    match copyObject st cname file_path (osJoin3 cname target_directory nn) with
    | .error _ => (.ok (), st)
    | .ok st1 =>
      match deleteObject st1 file_path with
      | .error _ => (.ok (), st1)
      | .ok st2 => (.ok (), st2)

/-- `Container.delete(file_path)`: the `ClientException` of a missing
object is caught and logged, so the call always returns `None`. -/
def delete (st : Store) (file_path : String) : Except PyErr Unit × Store :=
  match deleteObject st file_path with
  | .ok st1 => (.ok (), st1)
  | .error _ => (.ok (), st)

/-- `Container.copy_directory(directory_path, target_directory, new_name,
overwrite)`: append a trailing slash if missing, filter the listing by the
prefix, raise `Exception` when nothing matches, else run `Container.copy`
on each match with target `os.path.join(target_directory, new_name)`.
`directory_path[-1]` on an empty string raises `IndexError`. -/
def copy_directory (cname : String) (st : Store)
    (directory_path target_directory : String)
    (new_name : Option String := none) (overwrite : Bool := false) :
    Except PyErr Unit × Store :=
  if directory_path = "" then (.error .indexError, st)
  else
    let dp := if directory_path.data.getLast? = some '/' then directory_path
              else directory_path ++ "/"
    let nn := match new_name with
      | none => pyBasename dp
      | some n => if n = "" then pyBasename dp else n
    let dir_files := st.filter (fun o => pyStartsWith o.name dp)
    if dir_files.isEmpty then
      (.error (.exn "Specified directory does not exist in this container!"), st)
    else
      (.ok (), dir_files.foldl
        (fun acc f =>
          (copy cname acc f.name (osJoin target_directory nn) none overwrite).2)
        st)

/-- `Container.delete_directory(directory_path)`: append a trailing slash
if missing, filter the listing by the prefix, raise `Exception` when
nothing matches, else run `Container.delete` on each match. -/
def delete_directory (st : Store) (directory_path : String) :
    Except PyErr Unit × Store :=
  if directory_path = "" then (.error .indexError, st)
  else
    let dp := if directory_path.data.getLast? = some '/' then directory_path
              else directory_path ++ "/"
    let dir_files := st.filter (fun o => pyStartsWith o.name dp)
    if dir_files.isEmpty then
      (.error (.exn "Specified directory does not exist in this container!"), st)
    else
      (.ok (), dir_files.foldl (fun acc f => (delete acc f.name).2) st)

/-- The `text_content_types` allow-list of `Container.read`. -/
def text_content_types : List String := ["application/json"]

/-- The condition of `Container.read`:
`ct_parts[0] == "text" or content_type in text_content_types or
content_type in accept`. -/
def isTextual (content_type : String) (accept : List String) : Bool :=
  String.mk ((splitChAux '/' content_type.data).headD []) = "text"
    || text_content_types.any (fun t => t = content_type)
    || accept.any (fun t => t = content_type)

/-- Python truthiness of the `decode` argument: `False`/`None` and the
empty string are falsy, any other encoding name is truthy. -/
def pyTruthy (decode : Option String) : Bool :=
  match decode with
  | none => false
  | some s => s ≠ ""

/-- `Container.read(file_path, decode, accept)`.  `dec` is the byte-string
decoder (`bytes.decode(encoding)` of the Python runtime, a collaborator);
`Sum.inl` is a decoded `str` result, `Sum.inr` the raw `bytes`.  A missing
object makes `get_object` raise `ClientException`, which is not caught. -/
def read (dec : String → List Nat → String) (st : Store) (file_path : String)
    (decode : Option String := some "utf-8") (accept : List String := []) :
    Except PyErr (Sum String (List Nat)) :=
  match lookupObj st file_path with
  | none => .error .clientException
  | some o =>
    if isTextual o.content_type accept && pyTruthy decode then
      .ok (.inl (dec (decode.getD "") o.content))
    else
      .ok (.inr o.content)

/-- The local filesystem (collaborator): path to byte contents. -/
abbrev LocalFS := List (String × List Nat)

/-- The per-path loop of `Container.upload`: on a conflict with
`overwrite=False` the raised `IOError` is caught and the whole method
returns `None` at once; a missing local file makes `open` raise; otherwise
`put_object` and recurse.  `acc` is the accumulated `remote_paths`. -/
def uploadLoop (fs : LocalFS) (remote_directory : String) (overwrite : Bool) :
    Store → List String → List String →
    Except PyErr (Option (List String) × Store)
  | st, [], acc => .ok (some acc, st)
  | st, path :: rest, acc =>
    let remote_path := osJoin remote_directory (pyBasename path)
    if !overwrite && headObject st remote_path then
      .ok (none, st)
    else
      match (fs.find? (fun p => p.1 = path)).map Prod.snd with
      | none => .error (.ioError "No such file or directory")
      | some file_data =>
        uploadLoop fs remote_directory overwrite
          (putObject st remote_path file_data "application/octet-stream")
          rest (acc ++ [remote_path])

/-- `Container.upload(local_paths, remote_directory, overwrite)` for a list
of local paths (a single string is wrapped into a one-element list by the
source before the loop). -/
def upload (fs : LocalFS) (st : Store) (local_paths : List String)
    (remote_directory : String := "") (overwrite : Bool := false) :
    Except PyErr (Option (List String) × Store) :=
  uploadLoop fs remote_directory overwrite st local_paths []

end Container

/-- `File.copy(target_directory, new_name, overwrite)`: delegates to the
owning container's `copy`, but passes `os.path.dirname(self.name)` as the
target directory — the `target_directory` argument is not used. -/
def File.copy (cname : String) (st : Store) (file_name : String)
    (target_directory : String) (new_name : Option String := none)
    (overwrite : Bool := false) : Except PyErr Unit × Store :=
  Container.copy cname st file_name (pyDirname file_name) new_name overwrite

/-! ### ACL translation (`access_control`, `grant_access`)

Container metadata is the header map returned by `head_container`,
modelled as an association list.  `Project.users` is the user-id to
username map, also an association list in insertion order (Python `dict`
with distinct keys). -/

/-- Header map of a container (`self.metadata`). -/
abbrev Metadata := List (String × String)

/-- `dict.get(k)` on an association list: first binding wins (keys are
unique in a Python dict). -/
def metaGet (m : Metadata) (k : String) : Option String :=
  (m.find? (fun p => p.1 = k)).map Prod.snd

/-- Set one header (used by the backend to apply `post_container`). -/
def setMeta (m : Metadata) (k v : String) : Metadata :=
  if (m.find? (fun p => p.1 = k)).isSome then
    m.map (fun p => if p.1 = k then (k, v) else p)
  else m ++ [(k, v)]

/-- `post_container(name, headers)` (collaborator): merge the posted
headers into the container metadata. -/
def postContainer (m : Metadata) (headers : Metadata) : Metadata :=
  headers.foldl (fun acc p => setMeta acc p.1 p.2) m

/-- The header key `'x-container-{}'.format(key)`. -/
def aclKey (mode : String) : String := "x-container-" ++ mode

/-- One raw ACL value, as computed inside `access_control`:
`item = self.metadata.get('x-container-<key>', []); if item:
item = item.split(",")`.  The value is dynamically typed: a missing
header gives the default `[]` (a list, `Sum.inr`), an empty-string header
is falsy and stays an unsplit `str` (`Sum.inl`), any other header is
split into a list. -/
def aclRawVal (meta : Metadata) (key : String) : Sum String (List String) :=
  match metaGet meta (aclKey key) with
  | none => .inr []
  | some s => if s = "" then .inl s else .inr (pySplit ',' s)

/-- `access_control(show_usernames=False)`: the dict with exactly the
keys `"read"` and `"write"`, each holding the raw ACL value. -/
def access_control_raw (meta : Metadata) :
    List (String × Sum String (List String)) :=
  [("read", aclRawVal meta "read"), ("write", aclRawVal meta "write")]

/-- Python dict indexing `d[k]`: `KeyError` when the key is absent. -/
def dictIndex {α : Type} (d : List (String × α)) (k : String) :
    Except PyErr α :=
  match (d.find? (fun p => p.1 = k)).map Prod.snd with
  | none => .error .keyError
  | some v => .ok v

/-- Python `for item in acl[key]`: iterating a list yields its elements;
iterating a `str` yields its one-character substrings (none for `""`,
the only `str` value `aclRawVal` ever produces). -/
def aclItems : Sum String (List String) → List String
  | .inl s => s.data.map (fun c => String.mk [c])
  | .inr l => l

/-- The sentinel public markers `('.r:*', '.rlistings')`. -/
def pub_markers : List String := [".r:*", ".rlistings"]

/-- `item.split(":")[1]`: `IndexError` when the entry has no colon. -/
def colonSecond (item : String) : Except PyErr String :=
  match pySplit ':' item with
  | _ :: second :: _ => .ok second
  | _ => .error .indexError

/-- The `show_usernames=True` processing of one key in
`Container.access_control`: iterate the raw value, split off the public
markers, take `item.split(":")[1]` of each remaining entry, map each id
through `user_id_map.get(user_id, user_id)`, and append `"PUBLIC"` when a
public marker was present. -/
def aclNames (users : Metadata) (meta : Metadata) (key : String) :
    Except PyErr (List String) :=
  let items := aclItems (aclRawVal meta key)
  match (items.filter (fun i => !pub_markers.contains i)).mapM colonSecond with
  | .error e => .error e
  | .ok user_ids =>
    let names := user_ids.map (fun uid => (metaGet users uid).getD uid)
    if items.any (fun i => pub_markers.contains i) then
      .ok (names ++ ["PUBLIC"])
    else
      .ok names

/-- `Container.access_control()` (`show_usernames=True`): the dict with
exactly the keys `"read"` and `"write"`, the keys processed in that order
(a failure while processing `"read"` propagates first, as in the source's
loop). -/
def access_control (users : Metadata) (meta : Metadata) :
    Except PyErr (List (String × List String)) :=
  match aclNames users meta "read" with
  | .error e => .error e
  | .ok r =>
    match aclNames users meta "write" with
    | .error e => .error e
    | .ok w => .ok [("read", r), ("write", w)]

/-- `name_map[username]` where `name_map = {v: k for k, v in users}`:
in a Python dict comprehension the last pair with a given value wins;
a missing key raises `KeyError`. -/
def invLookup (users : Metadata) (username : String) : Option String :=
  (users.reverse.find? (fun p => p.2 = username)).map Prod.fst

/-- `Container.grant_access(username, mode)`: resolve the username through
the inverted user map (`KeyError` when absent), index
`access_control(show_usernames=False)` by the mode (`KeyError` for any
mode other than `"read"`/`"write"`), append `"<project_id>:<user_id>"`
with `+` (a `TypeError` when the raw value is the unsplit `str` left by
an empty-string header), post the single updated header, and drop the
cached metadata (the returned map is the refreshed backend state the next
`access_control` will read). -/
def grant_access (users : Metadata) (project_id : String) (meta : Metadata)
    (username : String) (mode : String := "read") : Except PyErr Metadata :=
  match invLookup users username with
  | none => .error .keyError
  | some user_id =>
    match dictIndex (access_control_raw meta) mode with
    | .error e => .error e
    | .ok (.inl _) => .error .typeError
    | .ok (.inr l) =>
      let new_acl := l ++ [project_id ++ ":" ++ user_id]
      postContainer meta [(aclKey mode, pyJoin ',' new_acl)] |> .ok

/-! ### Archive root authentication (spec section 4.1)

`Archive.__init__` builds a federated session and calls
`session.get_user_id()`; the collaborator outcome is either a user id,
an `AuthorizationFailure` (unknown principal) or an `IndexError` from the
SAML response parse (rejected secret).  The source converts the two
failures into distinct `Exception` messages. -/

/-- Outcome of the identity-exchange collaborator for
`session.get_user_id()`. -/
inductive SessionResult where
  | ok (user_id : String)
  | authorizationFailure
  | indexError
  deriving DecidableEq, Repr

/-- The authentication step of `Archive.__init__`. -/
def Archive.authenticate : SessionResult → Except PyErr String
  | .ok uid => .ok uid
  | .authorizationFailure => .error (.exn "Couldn't authenticate! Incorrect username.")
  | .indexError => .error (.exn "Couldn't authenticate! Incorrect password.")

/-! ### Lemmas about the backend model -/

theorem mk_data (s : String) : String.mk s.data = s := rfl

theorem lookupObj_nil (k : String) : lookupObj [] k = none := rfl

theorem lookupObj_cons (o : SwObj) (rest : Store) (k : String) :
    lookupObj (o :: rest) k =
      if o.name = k then some o else lookupObj rest k := by
  by_cases h : o.name = k <;>
    simp [lookupObj, List.find?_cons_of_pos, List.find?_cons_of_neg, h]

/-- Writing a key and reading it back yields the written object. -/
theorem lookupObj_putObject_self (st : Store) (k : String) (c : List Nat)
    (t : String) : lookupObj (putObject st k c t) k = some ⟨k, c, t⟩ := by
  unfold putObject
  by_cases h : headObject st k
  · simp only [h, if_pos]
    induction st with
    | nil => simp [headObject, lookupObj] at h
    | cons o rest ih =>
      by_cases ho : o.name = k
      · simp [lookupObj_cons, ho, List.map_cons]
      · have h1 : headObject rest k = true := by
          simpa [headObject, lookupObj_cons, ho] using h
        simpa [lookupObj_cons, ho] using ih h1
  · simp only [h, if_neg, Bool.false_eq_true, not_false_eq_true]
    induction st with
    | nil => simp [lookupObj_cons]
    | cons o rest ih =>
      have ho : o.name ≠ k := by
        intro he
        exact h (by simp [headObject, lookupObj_cons, he])
      have h1 : ¬ headObject rest k = true := by
        intro hr
        exact h (by simpa [headObject, lookupObj_cons, ho] using hr)
      simpa [lookupObj_cons, ho] using ih h1

theorem lookupObj_mapPut_ne (st : Store) {k k' : String} (c : List Nat)
    (t : String) (hne : k' ≠ k) :
    lookupObj (st.map (fun o => if o.name = k then ⟨k, c, t⟩ else o)) k' =
      lookupObj st k' := by
  induction st with
  | nil => rfl
  | cons o rest ih =>
    by_cases ho : o.name = k
    · have hkk : ¬ k = k' := fun he => hne he.symm
      have ho' : ¬ o.name = k' := fun he => hne (he.symm.trans ho)
      simp [lookupObj_cons, ho, hkk, ho', ih]
    · by_cases ho' : o.name = k'
      · simp [lookupObj_cons, ho, ho', hne]
      · simp [lookupObj_cons, ho, ho', ih]

theorem lookupObj_append_single_ne (st : Store) {k k' : String} (c : List Nat)
    (t : String) (hne : k' ≠ k) :
    lookupObj (st ++ [⟨k, c, t⟩]) k' = lookupObj st k' := by
  induction st with
  | nil =>
    have hkk : ¬ k = k' := fun he => hne he.symm
    simp [lookupObj_cons, lookupObj_nil, hkk]
  | cons o rest ih =>
    by_cases ho' : o.name = k'
    · simp [lookupObj_cons, ho']
    · simp [lookupObj_cons, ho', ih]

/-- Writing a key leaves every other key unchanged. -/
theorem lookupObj_putObject_ne (st : Store) {k k' : String} (c : List Nat)
    (t : String) (hne : k' ≠ k) :
    lookupObj (putObject st k c t) k' = lookupObj st k' := by
  unfold putObject
  by_cases h : headObject st k
  · simp [h, lookupObj_mapPut_ne st c t hne]
  · simp [h, lookupObj_append_single_ne st c t hne]

/-- A successful lookup returns an object carrying the looked-up key. -/
theorem lookupObj_name {st : Store} {k : String} {o : SwObj}
    (h : lookupObj st k = some o) : o.name = k := by
  have := List.find?_some h
  simpa using this

/-- Key membership in the listing is lookup success. -/
theorem mem_listKeys_iff (st : Store) (k : String) :
    k ∈ listKeys st ↔ headObject st k = true := by
  simp [listKeys, headObject, lookupObj, List.find?_isSome, List.mem_map]

/-! ### Lemmas about the split/join helpers -/

theorem splitChAux_ne_nil (sep : Char) (l : List Char) :
    splitChAux sep l ≠ [] := by
  cases l with
  | nil => simp [splitChAux]
  | cons c rest =>
    unfold splitChAux
    cases h : splitChAux sep rest with
    | nil => simp
    | cons hd tl => by_cases hc : c = sep <;> simp [hc]

theorem splitChAux_of_not_mem {sep : Char} {l : List Char} (h : sep ∉ l) :
    splitChAux sep l = [l] := by
  induction l with
  | nil => rfl
  | cons c rest ih =>
    have hc : ¬ c = sep := fun he => h (by simp [he])
    have hr : sep ∉ rest := fun hm => h (by simp [hm])
    unfold splitChAux
    rw [ih hr]
    simp [hc]

theorem splitChAux_cons (sep c : Char) (rest : List Char) :
    splitChAux sep (c :: rest) =
      match splitChAux sep rest with
      | [] => [[]]
      | h :: t => if c = sep then [] :: h :: t else (c :: h) :: t := rfl

theorem splitChAux_append_sep {sep : Char} {x : List Char} (r : List Char)
    (hx : sep ∉ x) :
    splitChAux sep (x ++ sep :: r) = x :: splitChAux sep r := by
  induction x with
  | nil =>
    show splitChAux sep (sep :: r) = [] :: splitChAux sep r
    rw [splitChAux_cons]
    cases h : splitChAux sep r with
    | nil => exact absurd h (splitChAux_ne_nil sep r)
    | cons hd tl => simp
  | cons c x' ih =>
    have hc : ¬ c = sep := fun he => hx (by simp [he])
    have hx' : sep ∉ x' := fun hm => hx (by simp [hm])
    show splitChAux sep (c :: (x' ++ sep :: r)) = (c :: x') :: splitChAux sep r
    rw [splitChAux_cons, ih hx']
    simp [hc]

theorem splitChAux_joinChAux {sep : Char} :
    ∀ (xss : List (List Char)), (∀ x ∈ xss, sep ∉ x) → xss ≠ [] →
      splitChAux sep (joinChAux sep xss) = xss
  | [], _, hne => absurd rfl hne
  | [x], h, _ => by
      simpa [joinChAux] using splitChAux_of_not_mem (h x (by simp))
  | x :: y :: ys, h, _ => by
      have hx : sep ∉ x := h x (by simp)
      have hrec := splitChAux_joinChAux (y :: ys)
        (fun z hz => h z (by simp [hz])) (by simp)
      show splitChAux sep (x ++ sep :: joinChAux sep (y :: ys)) = x :: y :: ys
      rw [splitChAux_append_sep _ hx, hrec]

theorem joinChAux_cons_of_ne_nil {sep : Char} {l : List (List Char)}
    (x : List Char) (h : l ≠ []) :
    joinChAux sep (x :: l) = x ++ sep :: joinChAux sep l := by
  cases l with
  | nil => exact absurd rfl h
  | cons y ys => rfl

theorem joinChAux_append_singleton_ne_nil {sep : Char} (xs : List (List Char))
    {e : List Char} (he : e ≠ []) : joinChAux sep (xs ++ [e]) ≠ [] := by
  cases xs with
  | nil => simpa [joinChAux] using he
  | cons x xs' =>
    rw [show (x :: xs') ++ [e] = x :: (xs' ++ [e]) from rfl,
        joinChAux_cons_of_ne_nil x (by simp)]
    simp

theorem pySplit_pyJoin {sep : Char} (xs : List String)
    (h : ∀ s ∈ xs, sep ∉ s.data) (hne : xs ≠ []) :
    pySplit sep (pyJoin sep xs) = xs := by
  unfold pySplit pyJoin
  rw [show (String.mk (joinChAux sep (xs.map String.data))).data =
        joinChAux sep (xs.map String.data) from rfl]
  rw [splitChAux_joinChAux (xs.map String.data)
        (by
          intro x hx
          rcases List.mem_map.mp hx with ⟨s, hs, rfl⟩
          exact h s hs)
        (by simpa using hne)]
  rw [List.map_map]
  have : ∀ s ∈ xs, (String.mk ∘ String.data) s = s := by
    intro s _
    exact mk_data s
  simpa using List.map_congr_left this

theorem pyJoin_append_singleton_ne_empty {sep : Char} (xs : List String)
    {e : String} (he : e.data ≠ []) : pyJoin sep (xs ++ [e]) ≠ "" := by
  unfold pyJoin
  intro hcontra
  have hdat : joinChAux sep ((xs ++ [e]).map String.data) = [] := by
    have := congrArg String.data hcontra
    simpa using this
  rw [List.map_append] at hdat
  exact joinChAux_append_singleton_ne_nil (xs.map String.data) he
    (by simpa using hdat)

theorem colonSecond_entry {pid uid : String} (hp : ':' ∉ pid.data)
    (hu : ':' ∉ uid.data) : colonSecond (pid ++ ":" ++ uid) = .ok uid := by
  unfold colonSecond pySplit
  have hdata : (pid ++ ":" ++ uid).data = pid.data ++ ':' :: uid.data := by
    have h1 : (":" : String).data = [':'] := by decide
    rw [String.data_append, String.data_append, h1]
    simp
  rw [hdata, splitChAux_append_sep _ hp, splitChAux_of_not_mem hu]
  simp [mk_data]

theorem filterDel_cons (o : SwObj) (rest : Store) (a : String) :
    (o :: rest).filter (fun x => x.name ≠ a) =
      if o.name = a then rest.filter (fun x => x.name ≠ a)
      else o :: rest.filter (fun x => x.name ≠ a) := by
  by_cases ho : o.name = a <;> simp [List.filter_cons, ho]

/-- Deleting key `a` does not disturb lookups of a different key. -/
theorem lookupObj_filter_ne (st : Store) {a k : String} (h : k ≠ a) :
    lookupObj (st.filter (fun o => o.name ≠ a)) k = lookupObj st k := by
  induction st with
  | nil => rfl
  | cons o rest ih =>
    rw [filterDel_cons]
    by_cases ho : o.name = a
    · rw [if_pos ho, ih, lookupObj_cons,
        if_neg (fun he => h (he.symm.trans ho))]
    · rw [if_neg ho, lookupObj_cons, lookupObj_cons, ih]

/-- After deleting key `a`, the listing no longer contains `a`. -/
theorem not_mem_listKeys_filter (st : Store) (a : String) :
    a ∉ listKeys (st.filter (fun o => o.name ≠ a)) := by
  intro hmem
  rw [listKeys] at hmem
  rcases List.mem_map.mp hmem with ⟨o, ho, he⟩
  have := (List.mem_filter.mp ho).2
  simp only [decide_eq_true_eq] at this
  exact this he

/-- Setting a metadata header and reading it back yields the set value. -/
theorem metaGet_setMeta_self (m : Metadata) (k v : String) :
    metaGet (setMeta m k v) k = some v := by
  unfold setMeta
  by_cases h : (m.find? (fun p => p.1 = k)).isSome
  · simp only [h, if_pos]
    induction m with
    | nil => simp at h
    | cons p rest ih =>
      by_cases hp : p.1 = k
      · simp [metaGet, List.find?_cons_of_pos, hp]
      · have h1 : (rest.find? (fun p => p.1 = k)).isSome := by
          simpa [List.find?_cons_of_neg, hp] using h
        simpa [metaGet, List.find?_cons_of_neg, hp] using ih h1
  · simp only [h, if_neg, Bool.false_eq_true, not_false_eq_true]
    induction m with
    | nil => simp [metaGet]
    | cons p rest ih =>
      have hp : ¬ p.1 = k := by
        intro he
        exact h (by simp [List.find?_cons_of_pos, he])
      have h1 : ¬ (rest.find? (fun q => q.1 = k)).isSome := by
        intro hr
        exact h (by simpa [List.find?_cons_of_neg, hp] using hr)
      simpa [metaGet, List.find?_cons_of_neg, hp] using ih h1

theorem metaGet_cons (p : String × String) (rest : Metadata) (k : String) :
    metaGet (p :: rest) k = if p.1 = k then some p.2 else metaGet rest k := by
  by_cases h : p.1 = k <;>
    simp [metaGet, List.find?_cons_of_pos, List.find?_cons_of_neg, h]

theorem metaGet_mapSet_ne (m : Metadata) {k k' : String} (v : String)
    (hne : k' ≠ k) :
    metaGet (m.map (fun p => if p.1 = k then (k, v) else p)) k' =
      metaGet m k' := by
  induction m with
  | nil => rfl
  | cons p rest ih =>
    by_cases hp : p.1 = k
    · have hkk : ¬ k = k' := fun he => hne he.symm
      have hp' : ¬ p.1 = k' := fun he => hne (he.symm.trans hp)
      simp [metaGet_cons, hp, hkk, hp', ih]
    · by_cases hp' : p.1 = k'
      · simp [metaGet_cons, hp, hp', hne]
      · simp [metaGet_cons, hp, hp', ih]

theorem metaGet_append_single_ne (m : Metadata) {k k' : String} (v : String)
    (hne : k' ≠ k) : metaGet (m ++ [(k, v)]) k' = metaGet m k' := by
  induction m with
  | nil =>
    have hkk : ¬ k = k' := fun he => hne he.symm
    simp [metaGet_cons, metaGet, hkk]
  | cons p rest ih =>
    by_cases hp' : p.1 = k'
    · simp [metaGet_cons, hp']
    · simp [metaGet_cons, hp', ih]

/-- Setting one header leaves every other header unchanged. -/
theorem metaGet_setMeta_ne (m : Metadata) {k k' : String} (v : String)
    (hne : k' ≠ k) : metaGet (setMeta m k v) k' = metaGet m k' := by
  unfold setMeta
  by_cases h : (m.find? (fun p => p.1 = k)).isSome
  · simp [h, metaGet_mapSet_ne m v hne]
  · simp [h, metaGet_append_single_ne m v hne]

/-- `aclNames` depends on the metadata only through the key's header. -/
theorem aclNames_congr (users : Metadata) (m1 m2 : Metadata) (key : String)
    (h : metaGet m1 (aclKey key) = metaGet m2 (aclKey key)) :
    aclNames users m1 key = aclNames users m2 key := by
  unfold aclNames aclRawVal
  rw [h]

/-- When the raw value of a key is a list whose non-public entries all
parse, `aclNames` succeeds and contains the resolved name of each parsed
id. -/
theorem aclNames_ok (users : Metadata) (meta : Metadata) (key : String)
    (l us : List String)
    (hraw : aclRawVal meta key = .inr l)
    (hmapM : (l.filter (fun i => !pub_markers.contains i)).mapM colonSecond =
      .ok us) :
    ∃ names, aclNames users meta key = .ok names ∧
      ∀ u ∈ us, (metaGet users u).getD u ∈ names := by
  have hac : aclNames users meta key =
      (if l.any (fun i => pub_markers.contains i) then
        .ok ((us.map (fun uid => (metaGet users uid).getD uid)) ++ ["PUBLIC"])
      else .ok (us.map (fun uid => (metaGet users uid).getD uid))) := by
    unfold aclNames
    rw [hraw]
    simp only [aclItems]
    rw [hmapM]
  by_cases hp : l.any (fun i => pub_markers.contains i) = true
  · refine ⟨_, by rw [hac, if_pos hp], ?_⟩
    intro u hu
    exact List.mem_append_left _ (List.mem_map.mpr ⟨u, hu, rfl⟩)
  · refine ⟨_, by rw [hac, if_neg hp], ?_⟩
    intro u hu
    exact List.mem_map.mpr ⟨u, hu, rfl⟩

/-! ### Claim theorems -/

/-- C5: `scale_bytes(1048576, "MB")` equals `1.0`, and for every value `x`
and every unit `u` outside the allowed set
`{"bytes","kB","MB","GB","TB"}` the call fails with a `ValueError`,
regardless of `x`. -/
theorem C5_scale_bytes_spec :
    scale_bytes 1048576 "MB" = .ok 1 ∧
    ∀ (x : ℚ) (u : String),
      u ∉ ["bytes", "kB", "MB", "GB", "TB"] →
      scale_bytes x u = .error (.valueError
        "Units must be one of ['bytes', 'kB', 'MB', 'GB', 'TB']") := by
  constructor
  · have h : (1048576 : ℚ) / ((1048576 : ℕ) : ℚ) = 1 := by norm_num
    simp [scale_bytes, allowed_units, List.find?, h]
  · intro x u hu
    simp only [List.mem_cons, List.not_mem_nil, or_false, not_or] at hu
    obtain ⟨h1, h2, h3, h4, h5⟩ := hu
    have hfind : allowed_units.find? (fun p => p.1 = u) = none := by
      rw [List.find?_eq_none]
      intro p hp
      simp only [allowed_units, List.mem_cons, List.not_mem_nil, or_false] at hp
      rcases hp with rfl | rfl | rfl | rfl | rfl
      · simp only [decide_eq_true_eq]
        exact fun he => h1 he.symm
      · simp only [decide_eq_true_eq]
        exact fun he => h2 he.symm
      · simp only [decide_eq_true_eq]
        exact fun he => h3 he.symm
      · simp only [decide_eq_true_eq]
        exact fun he => h4 he.symm
      · simp only [decide_eq_true_eq]
        exact fun he => h5 he.symm
    simp [scale_bytes, hfind]

/-- C5 witness: the hypotheses are satisfiable — `"unknown-unit"` is
outside the allowed set and the call fails with the `ValueError`. -/
theorem C5_witness :
    ("unknown-unit" ∉ ["bytes", "kB", "MB", "GB", "TB"]) ∧
    scale_bytes 7 "unknown-unit" = .error (.valueError
      "Units must be one of ['bytes', 'kB', 'MB', 'GB', 'TB']") :=
  ⟨by decide, C5_scale_bytes_spec.2 7 "unknown-unit" (by decide)⟩

/-- C8: root authentication fails on an unknown principal
(`AuthorizationFailure` from the identity service) and on a rejected
secret (`IndexError` from the SAML response parse), and the two failures
are distinguishable by the caller: the source raises plain `Exception`s
whose messages differ ("Incorrect username." vs "Incorrect password."),
so the two error values are distinct. -/
theorem C8_authenticate_failures_distinguishable :
    Archive.authenticate .authorizationFailure =
      .error (.exn "Couldn't authenticate! Incorrect username.") ∧
    Archive.authenticate .indexError =
      .error (.exn "Couldn't authenticate! Incorrect password.") ∧
    Archive.authenticate .authorizationFailure ≠
      Archive.authenticate .indexError := by
  refine ⟨rfl, rfl, ?_⟩
  decide

/-- C9: `File.copy` ignores its `target_directory` argument entirely: for
every file with an owning container it delegates to the container's
`copy` with `os.path.dirname` of the file's own name as the target, so
the outcome is the same for any two requested target directories. -/
theorem C9_file_copy_ignores_target :
    ∀ (cname : String) (st : Store) (file_name td td' : String)
      (new_name : Option String) (overwrite : Bool),
      File.copy cname st file_name td new_name overwrite =
        Container.copy cname st file_name (pyDirname file_name)
          new_name overwrite ∧
      File.copy cname st file_name td new_name overwrite =
        File.copy cname st file_name td' new_name overwrite := by
  intro cname st fn td td' nn ow
  exact ⟨rfl, rfl⟩

/-- C4: with objects `a/1.txt`, `a/2.txt`, `b/3.txt`,
`delete_directory("a")` deletes exactly the objects under the prefix
normalized to `"a/"` (append one slash), leaving `b/3.txt`; the repeated
call matches no keys and fails with the directory-not-found error (raised
as a plain `Exception` in the source — the spec's `NotFoundError`). -/
theorem C4_delete_directory_scenario :
    Container.delete_directory
      [⟨"a/1.txt", [49], "text/plain"⟩, ⟨"a/2.txt", [50], "text/plain"⟩,
       ⟨"b/3.txt", [51], "text/plain"⟩] "a" =
      (.ok (), [⟨"b/3.txt", [51], "text/plain"⟩]) ∧
    Container.delete_directory [⟨"b/3.txt", [51], "text/plain"⟩] "a" =
      (.error (.exn "Specified directory does not exist in this container!"),
       [⟨"b/3.txt", [51], "text/plain"⟩]) :=
  ⟨by decide, by decide⟩

/-- C1: evaluation at the failing input: with the single object
`a/sub/x.txt`, `copy_directory("a", "t")` copies it to the flattened key
`t/x.txt` — the relative sub-path `sub/x.txt` under `a/` is not preserved
below the new location (`t/sub/x.txt` is absent from the target listing),
contradicting the claim and the method docstring ("The original tree
structure of the directory will be maintained at the target location"). -/
theorem C1_copy_directory_flattens :
    Container.copy_directory "mycont" [⟨"a/sub/x.txt", [120], "text/plain"⟩]
      "a" "t" none false =
      (.ok (), [⟨"a/sub/x.txt", [120], "text/plain"⟩,
                ⟨"t/x.txt", [120], "text/plain"⟩]) ∧
    "t/sub/x.txt" ∉ listKeys (Container.copy_directory "mycont"
      [⟨"a/sub/x.txt", [120], "text/plain"⟩] "a" "t" none false).2 :=
  ⟨by decide, by decide⟩

/-- C10: `upload` with `overwrite=False` aborts the entire batch at the
first local path whose remote target already exists: it returns `None`
(not the list of uploaded remote paths) and uploads none of the remaining
local paths — the store is exactly the store at the moment the conflict
was found. -/
theorem C10_upload_aborts_on_conflict :
    ∀ (fs : Container.LocalFS) (st : Store) (rd path : String)
      (rest acc : List String),
      headObject st (osJoin rd (pyBasename path)) = true →
      Container.uploadLoop fs rd false st (path :: rest) acc =
        .ok (none, st) ∧
      Container.upload fs st (path :: rest) rd false = .ok (none, st) := by
  intro fs st rd path rest acc h
  constructor
  · unfold Container.uploadLoop
    simp [h]
  · unfold Container.upload Container.uploadLoop
    simp [h]

/-- C10 witness: a concrete conflicting batch — the remote target of the
first path exists, the call returns `None` and uploads nothing. -/
theorem C10_witness :
    headObject [⟨"f.txt", [9], "text/plain"⟩]
      (osJoin "" (pyBasename "f.txt")) = true ∧
    (Container.uploadLoop [("f.txt", [1])] "" false
        [⟨"f.txt", [9], "text/plain"⟩] ["f.txt", "g.txt"] [] =
      .ok (none, [⟨"f.txt", [9], "text/plain"⟩]) ∧
     Container.upload [("f.txt", [1])] [⟨"f.txt", [9], "text/plain"⟩]
        ["f.txt", "g.txt"] "" false =
      .ok (none, [⟨"f.txt", [9], "text/plain"⟩])) :=
  ⟨by decide, C10_upload_aborts_on_conflict [("f.txt", [1])]
    [⟨"f.txt", [9], "text/plain"⟩] "" "f.txt" ["g.txt"] [] (by decide)⟩

/-- C2 counterexample: destination `x/new.txt` exists and
`copy("src.txt", "x", new_name="new.txt")` without overwrite returns
normally (`None`, i.e. `.ok ()`) with the store unchanged: no
`ConflictError` — no exception of any kind — is reported to the caller,
because the `IOError` raised by the guard is immediately caught and only
logged inside the method. -/
theorem C2_counterexample :
    Container.copy "cont"
      [⟨"src.txt", [65], "text/plain"⟩, ⟨"x/new.txt", [66], "text/plain"⟩]
      "src.txt" "x" (some "new.txt") false =
      (.ok (), [⟨"src.txt", [65], "text/plain"⟩,
                ⟨"x/new.txt", [66], "text/plain"⟩]) := by
  decide

/-- C2 amended: with overwrite not permitted and the destination key
existing, `copy` (and `move`) aborts — nothing is written, the store is
returned unchanged — but the conflict is only logged and the method
returns `None`; no `ConflictError` is raised to the caller.  With
overwrite permitted the copy succeeds and the destination object holds
exactly the source's bytes. -/
theorem C2_copy_conflict_behaviour :
    ∀ (cname : String) (st : Store) (src tgt nn : String) (o : SwObj),
      nn ≠ "" →
      headObject st (osJoin tgt nn) = true →
      lookupObj st src = some o →
      Container.copy cname st src tgt (some nn) false = (.ok (), st) ∧
      Container.move cname st src tgt (some nn) false = (.ok (), st) ∧
      lookupObj (Container.copy cname st src tgt (some nn) true).2
          (stripContName cname (osJoin3 cname tgt nn)) =
        some ⟨stripContName cname (osJoin3 cname tgt nn),
              o.content, o.content_type⟩ := by
  intro cname st src tgt nn o hnn hhead hsrc
  refine ⟨?_, ?_, ?_⟩
  · unfold Container.copy
    simp [hnn, hhead]
  · unfold Container.move
    simp [hnn, hhead]
  · unfold Container.copy
    simp only [hnn, if_neg, Bool.not_true, Bool.false_and, Bool.false_eq_true,
      not_false_eq_true, if_false]
    unfold copyObject
    rw [hsrc]
    simp [lookupObj_putObject_self]

/-- C2 witness: concrete instantiation — destination `x/new.txt` exists,
the no-overwrite copy and move leave the store unchanged without raising,
and the overwrite copy makes the destination's bytes the source's. -/
theorem C2_witness :
    (("new.txt" : String) ≠ "" ∧
     headObject
       [⟨"src.txt", [65], "text/plain"⟩, ⟨"x/new.txt", [66], "text/plain"⟩]
       (osJoin "x" "new.txt") = true ∧
     lookupObj
       [⟨"src.txt", [65], "text/plain"⟩, ⟨"x/new.txt", [66], "text/plain"⟩]
       "src.txt" = some ⟨"src.txt", [65], "text/plain"⟩) ∧
    (Container.copy "cont"
       [⟨"src.txt", [65], "text/plain"⟩, ⟨"x/new.txt", [66], "text/plain"⟩]
       "src.txt" "x" (some "new.txt") false =
       (.ok (), [⟨"src.txt", [65], "text/plain"⟩,
                 ⟨"x/new.txt", [66], "text/plain"⟩]) ∧
     Container.move "cont"
       [⟨"src.txt", [65], "text/plain"⟩, ⟨"x/new.txt", [66], "text/plain"⟩]
       "src.txt" "x" (some "new.txt") false =
       (.ok (), [⟨"src.txt", [65], "text/plain"⟩,
                 ⟨"x/new.txt", [66], "text/plain"⟩]) ∧
     lookupObj (Container.copy "cont"
         [⟨"src.txt", [65], "text/plain"⟩, ⟨"x/new.txt", [66], "text/plain"⟩]
         "src.txt" "x" (some "new.txt") true).2
         (stripContName "cont" (osJoin3 "cont" "x" "new.txt")) =
       some ⟨stripContName "cont" (osJoin3 "cont" "x" "new.txt"),
             [65], "text/plain"⟩) :=
  ⟨⟨by decide, by decide, by decide⟩,
   C2_copy_conflict_behaviour "cont"
     [⟨"src.txt", [65], "text/plain"⟩, ⟨"x/new.txt", [66], "text/plain"⟩]
     "src.txt" "x" "new.txt" ⟨"src.txt", [65], "text/plain"⟩
     (by decide) (by decide) (by decide)⟩

/-- C3 counterexample: after `move("a.txt", "d")` succeeds, the second
identical call returns normally (`None`, `.ok ()`) with the store
unchanged — it does not fail with `NotFoundError`; the destination-exists
guard fires first, the raised `IOError` is caught and logged, and `move`
never lets any exception reach the caller. -/
theorem C3_counterexample :
    Container.move "c" [⟨"a.txt", [65], "text/plain"⟩] "a.txt" "d"
      none false = (.ok (), [⟨"d/a.txt", [65], "text/plain"⟩]) ∧
    Container.move "c" [⟨"d/a.txt", [65], "text/plain"⟩] "a.txt" "d"
      none false = (.ok (), [⟨"d/a.txt", [65], "text/plain"⟩]) :=
  ⟨by decide, by decide⟩

/-- C3 amended: for a present source `a` and a fresh destination,
`move(a, b)` makes the listing contain the destination key and no longer
contain `a`; and a second identical `move` call returns `None` with the
store unchanged (the conflict is only logged) rather than raising
`NotFoundError` — `move` never raises to its caller. -/
theorem C3_move_then_retry :
    ∀ (cname : String) (st : Store) (a b dest : String) (o : SwObj),
      dest = osJoin b (pyBasename a) →
      stripContName cname (osJoin3 cname b (pyBasename a)) = dest →
      lookupObj st a = some o →
      headObject st dest = false →
      dest ≠ a →
      (Container.move cname st a b none false).1 = .ok () ∧
      dest ∈ listKeys (Container.move cname st a b none false).2 ∧
      a ∉ listKeys (Container.move cname st a b none false).2 ∧
      Container.move cname ((Container.move cname st a b none false).2)
        a b none false =
        (.ok (), (Container.move cname st a b none false).2) := by
  intro cname st a b dest o hdest hstrip hsrc hfresh hne
  have hput_a : headObject (putObject st dest o.content o.content_type) a =
      true := by
    unfold headObject
    rw [lookupObj_putObject_ne st o.content o.content_type
      (fun he => hne he.symm), hsrc]
    rfl
  have hmove : Container.move cname st a b none false =
      (.ok (), (putObject st dest o.content o.content_type).filter
        (fun x => x.name ≠ a)) := by
    simp only [Container.move]
    rw [← hdest]
    simp [hfresh, copyObject, hsrc, hstrip, deleteObject, hput_a]
  have hlookup_dest :
      lookupObj ((putObject st dest o.content o.content_type).filter
        (fun x => x.name ≠ a)) dest =
        some ⟨dest, o.content, o.content_type⟩ := by
    rw [lookupObj_filter_ne _ hne, lookupObj_putObject_self]
  have hhead2 : headObject
      ((putObject st dest o.content o.content_type).filter
        (fun x => x.name ≠ a)) dest = true := by
    unfold headObject
    rw [hlookup_dest]
    rfl
  refine ⟨by rw [hmove], ?_, ?_, ?_⟩
  · rw [hmove]
    rw [mem_listKeys_iff]
    exact hhead2
  · rw [hmove]
    exact not_mem_listKeys_filter _ a
  · rw [hmove]
    simp only [Container.move]
    rw [← hdest]
    have hhead2n := hhead2
    simp only [ne_eq, decide_not] at hhead2n
    simp [hhead2n]

/-- C3 witness: concrete instantiation — `move("a.txt", "d")` moves the
object to `d/a.txt` and removes `a.txt`; the identical retry returns
`None` and changes nothing. -/
theorem C3_witness :
    (("d/a.txt" : String) = osJoin "d" (pyBasename "a.txt") ∧
     stripContName "c" (osJoin3 "c" "d" (pyBasename "a.txt")) = "d/a.txt" ∧
     lookupObj [⟨"a.txt", [65], "text/plain"⟩] "a.txt" =
       some ⟨"a.txt", [65], "text/plain"⟩ ∧
     headObject [⟨"a.txt", [65], "text/plain"⟩] "d/a.txt" = false ∧
     ("d/a.txt" : String) ≠ "a.txt") ∧
    ((Container.move "c" [⟨"a.txt", [65], "text/plain"⟩] "a.txt" "d"
        none false).1 = .ok () ∧
     "d/a.txt" ∈ listKeys (Container.move "c"
        [⟨"a.txt", [65], "text/plain"⟩] "a.txt" "d" none false).2 ∧
     "a.txt" ∉ listKeys (Container.move "c"
        [⟨"a.txt", [65], "text/plain"⟩] "a.txt" "d" none false).2 ∧
     Container.move "c" ((Container.move "c"
        [⟨"a.txt", [65], "text/plain"⟩] "a.txt" "d" none false).2)
        "a.txt" "d" none false =
       (.ok (), (Container.move "c"
        [⟨"a.txt", [65], "text/plain"⟩] "a.txt" "d" none false).2)) :=
  ⟨⟨by decide, by decide, by decide, by decide, by decide⟩,
   C3_move_then_retry "c" [⟨"a.txt", [65], "text/plain"⟩] "a.txt" "d"
     "d/a.txt" ⟨"a.txt", [65], "text/plain"⟩
     (by decide) (by decide) (by decide) (by decide) (by decide)⟩

/-- C6: `read` returns the decoded text exactly when the content type is
textual (primary MIME class `"text"`, the built-in allow-list containing
`application/json`, or the caller's `accept` list) and the decode flag is
truthy; with a falsy decode flag it returns the raw bytes regardless of
content type; and decoding the raw-bytes result with the same encoding
reproduces the decoded string exactly (round-trip law). -/
theorem C6_read_decode_spec :
    ∀ (dec : String → List Nat → String) (st : Store) (fp enc : String)
      (accept : List String) (o : SwObj),
      lookupObj st fp = some o →
      enc ≠ "" →
      (Container.isTextual o.content_type accept = true →
        Container.read dec st fp (some enc) accept =
          .ok (.inl (dec enc o.content))) ∧
      (Container.isTextual o.content_type accept = false →
        Container.read dec st fp (some enc) accept = .ok (.inr o.content)) ∧
      Container.read dec st fp none accept = .ok (.inr o.content) ∧
      (∀ raw s,
        Container.read dec st fp none accept = .ok (.inr raw) →
        Container.read dec st fp (some enc) accept = .ok (.inl s) →
        dec enc raw = s) := by
  intro dec st fp enc accept o hsrc henc
  have htruthy : Container.pyTruthy (some enc) = true := by
    simp [Container.pyTruthy, henc]
  refine ⟨?_, ?_, ?_, ?_⟩
  · intro ht
    simp [Container.read, hsrc, ht, htruthy]
  · intro hf
    simp [Container.read, hsrc, hf]
  · simp [Container.read, hsrc, Container.pyTruthy]
  · intro raw s hraw hs
    have h1 : o.content = raw := by
      simp [Container.read, hsrc, Container.pyTruthy] at hraw
      exact hraw
    by_cases ht : Container.isTextual o.content_type accept = true
    · simp [Container.read, hsrc, ht, htruthy] at hs
      rw [← h1, hs]
    · have hf : Container.isTextual o.content_type accept = false :=
        Bool.eq_false_iff.mpr ht
      simp [Container.read, hsrc, hf] at hs

/-- C6 witness: a concrete `text/plain` object — decoded read yields the
decoder's output, raw read yields the bytes, and the round-trip holds. -/
theorem C6_witness :
    (lookupObj [⟨"notes.txt", [104, 105], "text/plain"⟩] "notes.txt" =
       some ⟨"notes.txt", [104, 105], "text/plain"⟩ ∧
     ("utf-8" : String) ≠ "") ∧
    ((Container.isTextual "text/plain" [] = true →
        Container.read (fun _ _ => "hi")
          [⟨"notes.txt", [104, 105], "text/plain"⟩] "notes.txt"
          (some "utf-8") [] = .ok (.inl "hi")) ∧
     (Container.isTextual "text/plain" [] = false →
        Container.read (fun _ _ => "hi")
          [⟨"notes.txt", [104, 105], "text/plain"⟩] "notes.txt"
          (some "utf-8") [] = .ok (.inr [104, 105])) ∧
     Container.read (fun _ _ => "hi")
       [⟨"notes.txt", [104, 105], "text/plain"⟩] "notes.txt" none [] =
       .ok (.inr [104, 105]) ∧
     (∀ raw s,
       Container.read (fun _ _ => "hi")
         [⟨"notes.txt", [104, 105], "text/plain"⟩] "notes.txt" none [] =
         .ok (.inr raw) →
       Container.read (fun _ _ => "hi")
         [⟨"notes.txt", [104, 105], "text/plain"⟩] "notes.txt"
         (some "utf-8") [] = .ok (.inl s) →
       (fun (_ : String) (_ : List Nat) => "hi") "utf-8" raw = s)) :=
  ⟨⟨by decide, by decide⟩,
   C6_read_decode_spec (fun _ _ => "hi")
     [⟨"notes.txt", [104, 105], "text/plain"⟩] "notes.txt" "utf-8" []
     ⟨"notes.txt", [104, 105], "text/plain"⟩ (by decide) (by decide)⟩

/-- The embedded `grant_access` reproduces the source's error paths: a
mode outside `"read"`/`"write"` makes the indexing of the
`access_control(show_usernames=False)` dict raise `KeyError`, and an
empty-string stored header leaves the raw value an unsplit `str`, so the
`+` with the new-entry list raises `TypeError`. -/
theorem grant_access_error_paths :
    grant_access [("uid1", "alice")] "proj" [] "alice" "execute" =
      .error .keyError ∧
    grant_access [("uid1", "alice")] "proj" [("x-container-read", "")]
      "alice" "read" = .error .typeError :=
  ⟨by decide, by decide⟩

/-- C7: `grant_access` fails when the username is absent from the
project's user map (the dict lookup `name_map[username]` raises
`KeyError` — the spec's `UnknownUserError`); for a present username and a
requested mode `"read"` or `"write"` (any other mode makes the source's
`acl[mode]` raise `KeyError`), with the stored header of that mode absent
or nonempty (an empty-string header leaves a `str` raw value and the
source's `+` raises `TypeError`; both error paths are modelled in
`grant_access`), it appends the `"<project>:<user_id>"` entry to the raw
ACL of that mode, issues the single metadata update, and — the cached
metadata having been invalidated — a subsequent `access_control()` lists
the username under the requested mode. -/
theorem C7_grant_access_spec :
    (∀ (users : Metadata) (pid : String) (meta : Metadata)
       (uname mode : String),
       (∀ p ∈ users, p.2 ≠ uname) →
       grant_access users pid meta uname mode = .error .keyError) ∧
    (∀ (users : Metadata) (pid : String) (meta : Metadata)
       (uname mode uid : String) (acl0 uids0 rns wns : List String),
       mode = "read" ∨ mode = "write" →
       invLookup users uname = some uid →
       metaGet users uid = some uname →
       aclRawVal meta mode = .inr acl0 →
       (∀ e ∈ acl0, ',' ∉ e.data) →
       (acl0.filter (fun i => !pub_markers.contains i)).mapM colonSecond =
         .ok uids0 →
       ',' ∉ pid.data → ':' ∉ pid.data → ',' ∉ uid.data → ':' ∉ uid.data →
       pid ++ ":" ++ uid ∉ pub_markers →
       aclNames users meta "read" = .ok rns →
       aclNames users meta "write" = .ok wns →
       ∃ meta2,
         grant_access users pid meta uname mode = .ok meta2 ∧
         metaGet meta2 (aclKey mode) =
           some (pyJoin ',' (acl0 ++ [pid ++ ":" ++ uid])) ∧
         ∃ d names, access_control users meta2 = .ok d ∧
           dictIndex d mode = .ok names ∧ uname ∈ names) := by
  constructor
  · intro users pid meta uname mode h
    have hf : users.reverse.find? (fun p => p.2 = uname) = none := by
      rw [List.find?_eq_none]
      intro p hp
      simp only [decide_eq_true_eq]
      exact h p (List.mem_reverse.mp hp)
    unfold grant_access invLookup
    rw [hf]
    rfl
  · intro users pid meta uname mode uid acl0 uids0 rns wns hmode hinv hmap
      hraw hnc hmapM hpc hpcol huc hucol hnotpub hrd hwr
    set entry := pid ++ ":" ++ uid with hentry
    have hentrydata : entry.data = pid.data ++ ':' :: uid.data := by
      rw [hentry]
      have h1 : (":" : String).data = [':'] := by decide
      rw [String.data_append, String.data_append, h1]
      simp
    have hentry_ne : entry.data ≠ [] := by
      rw [hentrydata]
      simp
    have hentry_nc : ',' ∉ entry.data := by
      rw [hentrydata]
      simp only [List.mem_append, List.mem_cons, not_or]
      refine ⟨hpc, by decide, huc⟩
    set joined := pyJoin ',' (acl0 ++ [entry]) with hjoined
    have hj_ne : joined ≠ "" := pyJoin_append_singleton_ne_empty _ hentry_ne
    have hdict : dictIndex (access_control_raw meta) mode =
        .ok (aclRawVal meta mode) := by
      rcases hmode with rfl | rfl <;> rfl
    have hgrant : grant_access users pid meta uname mode =
        .ok (setMeta meta (aclKey mode) joined) := by
      unfold grant_access
      rw [hinv, hdict, hraw]
      rfl
    have hget2 : metaGet (setMeta meta (aclKey mode) joined) (aclKey mode) =
        some joined := metaGet_setMeta_self _ _ _
    have hraw2 : aclRawVal (setMeta meta (aclKey mode) joined) mode =
        .inr (acl0 ++ [entry]) := by
      have hcf : ∀ s ∈ acl0 ++ [entry], ',' ∉ s.data := by
        intro s hs
        rcases List.mem_append.mp hs with h | h
        · exact hnc s h
        · rw [List.mem_singleton.mp h]
          exact hentry_nc
      unfold aclRawVal
      simp only [hget2]
      rw [if_neg hj_ne, hjoined]
      rw [pySplit_pyJoin (acl0 ++ [entry]) hcf (by simp)]
    have hcolon : colonSecond entry = .ok uid := colonSecond_entry hpcol hucol
    have hfil_entry :
        List.filter (fun i => !pub_markers.contains i) [entry] = [entry] := by
      simp [List.filter_cons, hnotpub]
    have hmapM2 : ((acl0 ++ [entry]).filter
        (fun i => !pub_markers.contains i)).mapM colonSecond =
        .ok (uids0 ++ [uid]) := by
      rw [List.filter_append, hfil_entry, List.mapM_append, hmapM]
      have hone : List.mapM colonSecond [entry] = .ok [uid] := by
        show List.mapM.loop colonSecond [entry] [] = .ok [uid]
        unfold List.mapM.loop
        rw [hcolon]
        rfl
      rw [hone]
      rfl
    obtain ⟨names, hnames, hmem⟩ :=
      aclNames_ok users (setMeta meta (aclKey mode) joined) mode
        (acl0 ++ [entry]) (uids0 ++ [uid]) hraw2 hmapM2
    have huname : uname ∈ names := by
      have h := hmem uid (by simp)
      rw [hmap] at h
      exact h
    have hcongrOther : ∀ key, aclKey key ≠ aclKey mode →
        aclNames users (setMeta meta (aclKey mode) joined) key =
          aclNames users meta key := by
      intro key hk
      exact aclNames_congr users _ meta key
        (metaGet_setMeta_ne meta joined hk)
    rcases hmode with rfl | rfl
    · have hw2 : aclNames users (setMeta meta (aclKey "read") joined)
          "write" = .ok wns := by
        rw [hcongrOther "write" (by decide)]
        exact hwr
      refine ⟨_, hgrant, hget2, [("read", names), ("write", wns)], names,
        ?_, rfl, huname⟩
      unfold access_control
      rw [hnames, hw2]
    · have hr2 : aclNames users (setMeta meta (aclKey "write") joined)
          "read" = .ok rns := by
        rw [hcongrOther "read" (by decide)]
        exact hrd
      refine ⟨_, hgrant, hget2, [("read", rns), ("write", names)], names,
        ?_, rfl, huname⟩
      unfold access_control
      rw [hr2, hnames]

/-- C7 witness: a one-user map — granting to an unknown name fails with
the `KeyError`; granting `read` to `alice` (mode in the dict, header
absent) updates the single header and a subsequent `access_control`
lists `alice` under `read`. -/
theorem C7_witness :
    ((∀ p ∈ [("uid1", "alice")], p.2 ≠ "bob") ∧
     grant_access [("uid1", "alice")] "proj" [] "bob" "read" =
       .error .keyError) ∧
    ((("read" : String) = "read" ∨ ("read" : String) = "write") ∧
     invLookup [("uid1", "alice")] "alice" = some "uid1" ∧
     metaGet [("uid1", "alice")] "uid1" = some "alice" ∧
     aclRawVal ([] : Metadata) "read" = .inr [] ∧
     (∀ e ∈ ([] : List String), ',' ∉ e.data) ∧
     (([] : List String).filter
       (fun i => !pub_markers.contains i)).mapM colonSecond =
       .ok ([] : List String) ∧
     ',' ∉ ("proj" : String).data ∧ ':' ∉ ("proj" : String).data ∧
     ',' ∉ ("uid1" : String).data ∧ ':' ∉ ("uid1" : String).data ∧
     ("proj" : String) ++ ":" ++ "uid1" ∉ pub_markers ∧
     aclNames [("uid1", "alice")] [] "read" = .ok [] ∧
     aclNames [("uid1", "alice")] [] "write" = .ok [] ∧
     ∃ meta2,
       grant_access [("uid1", "alice")] "proj" [] "alice" "read" =
         .ok meta2 ∧
       metaGet meta2 (aclKey "read") =
         some (pyJoin ',' (([] : List String) ++
           [("proj" : String) ++ ":" ++ "uid1"])) ∧
       ∃ d names, access_control [("uid1", "alice")] meta2 = .ok d ∧
         dictIndex d "read" = .ok names ∧ "alice" ∈ names) :=
  ⟨⟨by decide, C7_grant_access_spec.1 [("uid1", "alice")] "proj" []
      "bob" "read" (by decide)⟩,
   ⟨Or.inl rfl, by decide, by decide, by decide, by decide, by decide,
    by decide, by decide, by decide, by decide, by decide, by decide,
    by decide,
    C7_grant_access_spec.2 [("uid1", "alice")] "proj" [] "alice" "read"
      "uid1" [] [] [] [] (Or.inl rfl) (by decide) (by decide) (by decide)
      (by decide) (by decide) (by decide) (by decide) (by decide)
      (by decide) (by decide) (by decide) (by decide)⟩⟩

end HbpArchive
